import Mathlib

/-!
Verification of the Ion configuration-format reader/writer.

The definitions below are a shallow embedding of the Rust sources:
`src/parser.rs` (scanner, value reader, element producer, document builder),
`src/ion/display.rs` (serializer) and `src/ion/section.rs` (row accessors).
The cursor (`Peekable<CharIndices>`) is modelled as the remaining input,
a `List Char`; borrowed sub-slices become `String`s.  `BTreeMap` is modelled
as an association list kept sorted by key (`insertSorted`).  Recursion of the
hand-rolled grammar is made total with a fuel parameter; every loop of the
Rust parser consumes at least one input character per iteration, so the fuel
chosen by the top-level entry points is never exhausted on real inputs.
`f64` values are abstracted by the literal digit string handed to Rust's
`str::parse::<f64>` (no claim below depends on float arithmetic or float
formatting); capacity hints (`with_section_capacity` etc.) are pre-allocation
advice without semantic effect and are omitted.
-/

namespace Ion

/-- The `Value` enum of `src/ion/value.rs`.  `dictionary` models
`BTreeMap<String, Value>` as a key-sorted association list; `float` keeps the
digit literal passed to `f64` conversion (see the header note). -/
inductive Value where
  | string : String → Value
  | integer : Int → Value
  | float : String → Value
  | boolean : Bool → Value
  | array : List Value → Value
  | dictionary : List (String × Value) → Value

/-- `ParserError` of `src/parser.rs`: the name of the enclosing section
(or "unknown" when none was seen) plus a description. -/
structure ParserError where
  «section» : String
  desc : String
  deriving DecidableEq

/-- The `Element` enum of `src/parser.rs` (`Section` is spelled `sect`
because `section` is a Lean keyword). -/
inductive Element where
  | sect : String → Element
  | row : List Value → Element
  | entry : String → Value → Element
  | comment : String → Element

/-- The `Section` struct of `src/ion/section.rs`; `dictionary` models the
key-sorted `BTreeMap`. -/
structure Section where
  dictionary : List (String × Value)
  rows : List (List Value)

/-- A parsed document: `BTreeMap<String, Section>` as a key-sorted
association list. -/
abbrev Doc := List (String × Section)

/-- Lexicographic order on character lists by code point — the order of
Rust's `Ord for String` (UTF-8 byte order coincides with code-point
order). -/
def charsLt : List Char → List Char → Bool
  | [], [] => false
  | [], _ :: _ => true
  | _ :: _, [] => false
  | a :: as, b :: bs =>
    if Nat.blt a.toNat b.toNat then true
    else if Nat.blt b.toNat a.toNat then false
    else charsLt as bs

/-- The `BTreeMap` key order (see `charsLt`). -/
def strLt (a b : String) : Bool := charsLt a.toList b.toList

/-- `BTreeMap::insert` on the sorted-association-list model: replaces the
value when the key is present, otherwise inserts keeping keys sorted. -/
def insertSorted {α : Type} (k : String) (v : α) : List (String × α) → List (String × α)
  | [] => [(k, v)]
  | (k', v') :: rest =>
    if strLt k k' then (k, v) :: (k', v') :: rest
    else if k == k' then (k, v) :: rest
    else (k', v') :: insertSorted k v rest

/-- `Parser::create_error`: attribute the message to the last seen section
name, or "unknown" when none was seen yet. -/
def mkError (lastSec : Option String) (msg : String) : ParserError :=
  ⟨lastSec.getD "unknown", msg⟩

/-! ### Scanner / cursor (`src/parser.rs`) -/

/-- The whitespace test of `Parser::ws` (space and tab only). -/
def wsChar (c : Char) : Bool := c == ' ' || c == '\t'

/-- `Parser::ws`: consume leading spaces and tabs. -/
def ws (s : List Char) : List Char := s.dropWhile wsChar

/-- `Parser::newline`: consume `\n`, or `\r` optionally followed by `\n`.
Returns `none` when no newline is at the cursor. -/
def newline (s : List Char) : Option (List Char) :=
  match s with
  | [] => none
  | c :: rest =>
    if c == '\n' then some rest
    else if c == '\r' then
      match rest with
      | c2 :: rest2 => if c2 == '\n' then some rest2 else some rest
      | [] => some []
    else none

/-- `Parser::skip_line`: discard characters up to and including the next
`\n` (or the whole rest when no `\n` remains). -/
def skip_line (s : List Char) : List Char :=
  (s.dropWhile (fun c => !(c == '\n'))).drop 1

/-- `Parser::slice_to_inc`: slice from the next character through `ch`
inclusive, consuming `ch`; the whole rest when `ch` does not occur;
`none` on empty input. -/
def slice_to_inc (ch : Char) (s : List Char) : Option (String × List Char) :=
  match s with
  | [] => none
  | c :: rest =>
    if c == ch then some (String.mk [c], rest)
    else if rest.contains ch then
      some (String.mk (c :: (rest.takeWhile (fun x => !(x == ch)) ++ [ch])),
            (rest.dropWhile (fun x => !(x == ch))).drop 1)
    else some (String.mk (c :: rest), [])

/-- `Parser::slice_to_exc`: slice from the next character up to `ch`
exclusive, still consuming `ch`; the whole rest when `ch` does not occur;
`none` on empty input. -/
def slice_to_exc (ch : Char) (s : List Char) : Option (String × List Char) :=
  match s with
  | [] => none
  | c :: rest =>
    if c == ch then some ("", rest)
    else if rest.contains ch then
      some (String.mk (c :: rest.takeWhile (fun x => !(x == ch))),
            (rest.dropWhile (fun x => !(x == ch))).drop 1)
    else some (String.mk (c :: rest), [])

/-- `Parser::slice_while`: longest run of characters matching the predicate;
`none` when the first character already fails (nothing consumed then). -/
def slice_while (p : Char → Bool) (s : List Char) : Option (String × List Char) :=
  match s with
  | [] => none
  | c :: _ =>
    if p c then some (String.mk (s.takeWhile p), s.dropWhile p) else none

/-- Rust `str::trim_end` restricted to the ASCII whitespace that can occur
in this format (the format itself only produces space/tab/CR/LF here). -/
def trimEndChar (c : Char) : Bool :=
  c == ' ' || c == '\t' || c == '\n' || c == '\r'

/-- Rust `str::trim_end` as used by `Parser::cell`. -/
def trim_end (s : String) : String :=
  String.mk (s.toList.reverse.dropWhile trimEndChar).reverse

/-! ### Value reader (`src/parser.rs`) -/

/-- `Parser::finish_string`: consume the opening `"` and slice to the next
`"`; the error fires only when nothing follows the opening quote. -/
def finish_string (lastSec : Option String) (rem : List Char) :
    Except ParserError (Option Value) × List Char :=
  let rem1 := rem.drop 1
  match slice_to_exc '"' rem1 with
  | some (s, rem2) => (.ok (some (.string s)), rem2)
  | none => (.error (mkError lastSec "Cannot finish string"), rem1)

/-- Rust `str::parse::<i64>` on a nonempty decimal-digit run: fails exactly
on positive overflow. -/
def parse_i64 (s : String) : Option Int :=
  let n := s.toList.foldl (fun acc c => acc * 10 + (c.toNat - 48)) 0
  if n ≤ 9223372036854775807 then some (Int.ofNat n) else none

/-- `Parser::number`: digit run, optionally `.` and another digit run;
a dot selects float parsing (never failing on digit runs), otherwise `i64`
parsing whose conversion error is wrapped into a grammar error. -/
def number (lastSec : Option String) (rem : List Char) :
    Except ParserError (Option Value) × List Char :=
  match slice_while Char.isDigit rem with
  | none => (.ok none, rem)
  | some (intPart, rem1) =>
    if rem1.head? = some '.' then
      let rem2 := rem1.drop 1
      match slice_while Char.isDigit rem2 with
      | some (decPart, rem3) => (.ok (some (.float (intPart ++ "." ++ decPart))), rem3)
      | none => (.ok (some (.float (intPart ++ "."))), rem2)
    else
      match parse_i64 intPart with
      | some n => (.ok (some (.integer n)), rem1)
      | none =>
        (.error (mkError lastSec "number too large to fit in target type"), rem1)

/-- `Parser::boolean`: match the literal tokens `true`/`false` at the cursor;
a mismatch is `Ok(None)` (no value recognized), not an error. -/
def boolean (rem : List Char) : Except ParserError (Option Value) × List Char :=
  if rem.take 4 = ['t', 'r', 'u', 'e'] then (.ok (some (.boolean true)), rem.drop 4)
  else if rem.take 5 = ['f', 'a', 'l', 's', 'e'] then
    (.ok (some (.boolean false)), rem.drop 5)
  else (.ok none, rem)

/-- The key charset of `Parser::key_name`: `[A-Za-z0-9_-]`. -/
def keyChar (c : Char) : Bool := c.isAlphanum || c == '_' || c == '-'

mutual

/-- `Parser::value`: skip ws, at most one newline, ws again, then dispatch
on the lookahead character. -/
def value : Nat → Option String → List Char → Except ParserError (Option Value) × List Char
  | 0, lastSec, rem => (.error (mkError lastSec "out of fuel"), rem)
  | fuel + 1, lastSec, rem =>
    let rem1 := ws rem
    let rem2 := (newline rem1).getD rem1
    let rem3 := ws rem2
    match rem3 with
    | [] => (.error (mkError lastSec "Cannot read a value"), rem3)
    | c :: _ =>
      if c == '"' then finish_string lastSec rem3
      else if c == '[' then finish_array fuel lastSec (rem3.drop 1) []
      else if c == '{' then finish_dictionary fuel lastSec (rem3.drop 1) []
      else if c.isDigit then number lastSec rem3
      else if c == 't' || c == 'f' then boolean rem3
      else (.error (mkError lastSec "Cannot read a value"), rem3)

/-- `Parser::finish_array` (the leading `[` is consumed by `value`): loop
reading `,`-separated values until `]`; EOF or an unrecognized value is
"Cannot finish an array". -/
def finish_array : Nat → Option String → List Char → List Value →
    Except ParserError (Option Value) × List Char
  | 0, lastSec, rem, _ => (.error (mkError lastSec "out of fuel"), rem)
  | fuel + 1, lastSec, rem, acc =>
    let rem1 := ws rem
    match rem1 with
    | [] => (.error (mkError lastSec "Cannot finish an array"), rem1)
    | c :: rest =>
      if c == ']' then (.ok (some (.array acc)), rest)
      else if c == ',' then finish_array fuel lastSec rest acc
      else
        match value fuel lastSec rem1 with
        | (.ok (some v), rem2) => finish_array fuel lastSec rem2 (acc ++ [v])
        | (.ok none, rem2) => (.error (mkError lastSec "Cannot finish an array"), rem2)
        | (.error e, rem2) => (.error e, rem2)

/-- `Parser::finish_dictionary` (the leading `{` is consumed by `value`):
loop reading entries separated by `,` or newline until `}`. -/
def finish_dictionary : Nat → Option String → List Char → List (String × Value) →
    Except ParserError (Option Value) × List Char
  | 0, lastSec, rem, _ => (.error (mkError lastSec "out of fuel"), rem)
  | fuel + 1, lastSec, rem, acc =>
    let rem1 := ws rem
    match rem1 with
    | [] => (.error (mkError lastSec "Cannot finish a dictionary"), rem1)
    | c :: rest =>
      if c == '}' then (.ok (some (.dictionary acc)), rest)
      else if c == ',' then finish_dictionary fuel lastSec rest acc
      else if c == '\n' then finish_dictionary fuel lastSec rest acc
      else
        match entry fuel lastSec rem1 with
        | (.ok (some (Element.entry k v)), rem2) =>
          finish_dictionary fuel lastSec rem2 (insertSorted k v acc)
        | (.ok _, rem2) => (.error (mkError lastSec "Wrong entry of a dictionary"), rem2)
        | (.error e, rem2) => (.error e, rem2)

/-- `Parser::entry`: key name, `=` separator, then a value; a missing key is
`Ok(None)`; a value that comes back `Ok(None)` propagates as `Ok(None)`. -/
def entry : Nat → Option String → List Char → Except ParserError (Option Element) × List Char
  | 0, lastSec, rem => (.error (mkError lastSec "out of fuel"), rem)
  | fuel + 1, lastSec, rem =>
    match slice_while keyChar rem with
    | none => (.ok none, rem)
    | some (key, rem1) =>
      let rem2 := ws rem1
      if rem2.head? = some '=' then
        let rem3 := ws (rem2.drop 1)
        match value fuel lastSec rem3 with
        | (.ok (some v), rem4) => (.ok (some (.entry key v)), rem4)
        | (.ok none, rem4) => (.ok none, rem4)
        | (.error e, rem4) => (.error e, rem4)
      else (.error (mkError lastSec "Expected the '=' key value separator"), rem2)

end

/-! ### Element producer (`impl Iterator for Parser` and its helpers) -/

/-- The mutable parser state threaded through the element producer:
`last_section` (error attribution), `accepted_sections` (the filter working
set) and the cursor (remaining input). -/
structure PSt where
  lastSec : Option String
  accepted : Option (List String)
  rem : List Char

/-- `Vec::swap_remove`: remove index `i` by moving the last element into
its place. -/
def swap_remove (l : List String) (i : Nat) : List String :=
  match l.getLast? with
  | none => l
  | some last => (l.set i last).dropLast

/-- `Parser::is_section_accepted`: `Some true` accepts (removing the name
from a configured working set), `Some false` rejects, `None` signals that
the working set is configured but exhausted (early exit). -/
def is_section_accepted (name : String) (acc : Option (List String)) :
    Option Bool × Option (List String) :=
  match acc with
  | none => (some true, acc)
  | some sections =>
    if sections.isEmpty then (none, acc)
    else
      match sections.findIdx? (fun s => s == name) with
      | some idx => (some true, some (swap_remove sections idx))
      | none => (some false, acc)

/-- `Parser::section_name`: consume `[`, skip ws, take every character up to
the consumed `]` (caller records the name as `last_section`). -/
def section_name (rem : List Char) : String × List Char :=
  let rem1 := ws (rem.drop 1)
  (String.mk (rem1.takeWhile (fun c => !(c == ']'))),
   (rem1.dropWhile (fun c => !(c == ']'))).drop 1)

/-- `Parser::comment` after the `#` test succeeded: consume `#` and slice
through the newline inclusive (empty text at end of input). -/
def comment (rem : List Char) : Element × List Char :=
  let rem1 := rem.drop 1
  match slice_to_inc '\n' rem1 with
  | some (s, rem2) => (.comment s, rem2)
  | none => (.comment "", rem1)

/-- `Parser::cell`: skip ws, slice to the consumed `|` (or line rest), trim
trailing whitespace. -/
def cell (rem : List Char) : String × List Char :=
  let rem1 := ws rem
  match slice_to_exc '|' rem1 with
  | some (s, rem2) => (trim_end s, rem2)
  | none => ("", rem1)

/-- The loop of `Parser::row`: collect cells until an in-row comment
(consumed, not surfaced), a newline, or end of input. -/
def row_cells : Nat → List Char → List Value → List Value × List Char
  | 0, rem, acc => (acc, rem)
  | fuel + 1, rem, acc =>
    let rem1 := ws rem
    if rem1.head? = some '#' then (acc, (comment rem1).2)
    else
      match newline rem1 with
      | some rem2 => (acc, rem2)
      | none =>
        match rem1 with
        | [] => (acc, rem1)
        | _ =>
          let p := cell rem1
          row_cells fuel p.2 (acc ++ [Value.string p.1])

/-- `Parser::row`: consume the leading `|`, then collect the cells. -/
def row (fuel : Nat) (rem : List Char) : Element × List Char :=
  let p := row_cells fuel (rem.drop 1) []
  (.row p.1, p.2)

/-- `Iterator::next` for `Parser`: skip blank space, handle section headers
with filtering and line-skipping of rejected sections, then dispatch to
row / comment / entry.  `none` is end of the element sequence. -/
def next : Nat → Bool → PSt → Option (Except ParserError Element) × PSt
  | 0, _, st => (some (.error (mkError st.lastSec "out of fuel")), st)
  | fuel + 1, flag, st =>
    let rem1 := ws st.rem
    match newline rem1 with
    | some rem2 => next fuel flag ⟨st.lastSec, st.accepted, rem2⟩
    | none =>
      match rem1 with
      | [] => (none, ⟨st.lastSec, st.accepted, rem1⟩)
      | c :: _ =>
        if c == '[' then
          let p := section_name rem1
          match is_section_accepted p.1 st.accepted with
          | (some true, acc') => (some (.ok (.sect p.1)), ⟨some p.1, acc', p.2⟩)
          | (some false, acc') => next fuel false ⟨some p.1, acc', skip_line p.2⟩
          | (none, acc') => (none, ⟨some p.1, acc', p.2⟩)
        else if !flag then
          next fuel false ⟨st.lastSec, st.accepted, skip_line rem1⟩
        else if c == '|' then
          let p := row fuel rem1
          (some (.ok p.1), ⟨st.lastSec, st.accepted, p.2⟩)
        else if c == '#' then
          let p := comment rem1
          (some (.ok p.1), ⟨st.lastSec, st.accepted, p.2⟩)
        else
          match entry fuel st.lastSec rem1 with
          | (.ok (some el), rem2) => (some (.ok el), ⟨st.lastSec, st.accepted, rem2⟩)
          | (.ok none, rem2) => (none, ⟨st.lastSec, st.accepted, rem2⟩)
          | (.error e, rem2) => (some (.error e), ⟨st.lastSec, st.accepted, rem2⟩)

/-- Fuel handed to each `next` call: ample for its internal loops and the
value reader, both of which consume input at every step. -/
def nextFuel (st : PSt) : Nat := 4 * st.rem.length + 16

/-! ### Document builder (`Parser::read`) -/

/-- The loop of `Parser::read`: fold elements into sections; a header
commits the previous section; at end of sequence commit the final section,
using the default name "root" only when no header was seen and no filter is
configured (`Section::DEFAULT_NAME`, pinned by the tests in
`src/parser.rs`). -/
def read_loop : Nat → PSt → Option String → Doc → Section → Except ParserError Doc
  | 0, st, _, _, _ => .error (mkError st.lastSec "out of fuel")
  | fuel + 1, st, lastName, map, cur =>
    match next (nextFuel st) true st with
    | (none, st') =>
      .ok (match lastName with
        | some name => insertSorted name cur map
        | none =>
          match st'.accepted with
          | none => insertSorted "root" cur map
          | some _ => map)
    | (some (.error e), _) => .error e
    | (some (.ok el), st') =>
      match el with
      | .sect name =>
        read_loop fuel st' (some name)
          (match lastName with
           | some prev => insertSorted prev cur map
           | none => map)
          ⟨[], []⟩
      | .row r => read_loop fuel st' lastName map ⟨cur.dictionary, cur.rows ++ [r]⟩
      | .entry k v => read_loop fuel st' lastName map ⟨insertSorted k v cur.dictionary, cur.rows⟩
      | .comment _ => read_loop fuel st' lastName map cur

/-- The element sequence actually produced by a run (used to state "the
input contains no section header" semantically). -/
def trace_elems : Nat → PSt → List Element
  | 0, _ => []
  | fuel + 1, st =>
    match next (nextFuel st) true st with
    | (none, _) => []
    | (some (.error _), _) => []
    | (some (.ok el), st') => el :: trace_elems fuel st'

/-- Whether an element is a section header. -/
def Element.isSect : Element → Bool
  | .sect _ => true
  | _ => false

/-- `Parser::read` from an initial state (each successfully produced element
consumes at least one character, so `length + 1` outer steps suffice). -/
def parse_core (accepted : Option (List String)) (rem : List Char) : Except ParserError Doc :=
  read_loop (rem.length + 1) ⟨none, accepted, rem⟩ none [] ⟨[], []⟩

/-- `Ion::from_str` (unfiltered parse, `Parser::new` + `read`). -/
def parse_ion (input : String) : Except ParserError Doc :=
  parse_core none input.toList

/-- `Ion::from_str_filtered` (`Parser::new_filtered` + `read`). -/
def parse_ion_filtered (input : String) (accepted : List String) : Except ParserError Doc :=
  parse_core (some accepted) input.toList

/-! ### Serializer (`src/ion/display.rs`) -/

/-- Quoted-mode escaping (`{:#}` on `Value::String`): backslash, newline and
double quote. -/
def quote_escape_chars : List Char → List Char
  | [] => []
  | c :: rest =>
    if c == '\\' then '\\' :: '\\' :: quote_escape_chars rest
    else if c == '\n' then '\\' :: 'n' :: quote_escape_chars rest
    else if c == '"' then '\\' :: '"' :: quote_escape_chars rest
    else c :: quote_escape_chars rest

/-- Plain-mode escaping (`{}` on `Value::String`, used for table cells):
the stateful loop over `(escaping, c)` of `display.rs` lines 48-70. -/
def plain_escape_chars : Bool → List Char → List Char
  | _, [] => []
  | escaping, c :: rest =>
    if !escaping && c == '\\' then '\\' :: plain_escape_chars true rest
    else if !escaping && c == '\n' then '\\' :: 'n' :: plain_escape_chars false rest
    else if !escaping && c == '\t' then '\\' :: 't' :: plain_escape_chars false rest
    else if !escaping && c == '|' then '\\' :: '|' :: plain_escape_chars false rest
    else if escaping && c == '\\' then '\\' :: plain_escape_chars false rest
    else if escaping && c == 'n' then '\\' :: 'n' :: plain_escape_chars false rest
    else if escaping && c == 't' then '\\' :: 't' :: plain_escape_chars false rest
    else if escaping && c == '|' then '\\' :: '|' :: plain_escape_chars false rest
    else c :: plain_escape_chars false rest

/-- Comma separation as written by the `first` flag in `display.rs`. -/
def join_sep (sep : String) : List String → String
  | [] => ""
  | [s] => s
  | s :: rest => s ++ sep ++ join_sep sep rest

mutual

/-- `impl fmt::Display for Value`: the Bool is the alternate (`{:#}`,
quoted) flag; arrays and dictionaries always render elements quoted. -/
def display_value : Bool → Value → String
  | alternate, .string v =>
    if alternate then "\"" ++ String.mk (quote_escape_chars v.toList) ++ "\""
    else String.mk (plain_escape_chars false v.toList)
  | _, .integer n => toString n
  | _, .float lit => lit
  | _, .boolean b => if b then "true" else "false"
  | _, .array vs => "[ " ++ join_sep ", " (display_values vs) ++ " ]"
  | _, .dictionary d => "\x7b " ++ join_sep ", " (display_entries d) ++ " \x7d"

/-- Render the elements of an array (each in quoted mode). -/
def display_values : List Value → List String
  | [] => []
  | v :: rest => display_value true v :: display_values rest

/-- Render the entries of a nested dictionary (`k = v`, quoted mode). -/
def display_entries : List (String × Value) → List String
  | [] => []
  | kv :: rest => (kv.1 ++ " = " ++ display_value true kv.2) :: display_entries rest

end

/-- `impl fmt::Display for Section`: dictionary entries `k = v` in quoted
mode, then rows `| cell | ... |` with cells in plain mode. -/
def display_section (s : Section) : String :=
  String.join (s.dictionary.map (fun kv => kv.1 ++ " = " ++ display_value true kv.2 ++ "\n"))
    ++ String.join (s.rows.map (fun r =>
        String.join (r.map (fun c => "| " ++ display_value false c ++ " ")) ++ "|\n"))

/-- `impl fmt::Display for Ion`: `[name]` then the section then a blank
line, in key order. -/
def display_ion (doc : Doc) : String :=
  String.join (doc.map (fun ns => "[" ++ ns.1 ++ "]\n" ++ display_section ns.2 ++ "\n"))

/-! ### Section row accessors (`src/ion/section.rs`) -/

/-- The header-separator cell test of `Section::rows_without_header`:
a `Value::String` that is non-empty and all `-`. -/
def is_dash_cell : Value → Bool
  | .string s => !s.isEmpty && s.toList.all (fun c => c == '-')
  | _ => false

/-- `Section::rows_without_header`: drop the first two rows when there is
more than one row and the first cell of physical row 1 is a non-empty
all-dash string. -/
def Section.rows_without_header (s : Section) : List (List Value) :=
  if 1 < s.rows.length then
    let r := s.rows.getD 1 []
    if (r.head?.map is_dash_cell).getD false then s.rows.drop 2 else s.rows
  else s.rows

/-- `impl IntoIterator for &Section`: delegates to `rows_without_header`. -/
def Section.iter_ref_rows (s : Section) : List (List Value) :=
  s.rows_without_header

/-- `impl IntoIterator for Section` (by value): its own `has_header` test
via `skip(1).take(1).take_while(..).next().is_some()`, where the closure
looks at the cell at index 1 of the row and at `starts_with('-')` only. -/
def Section.into_iter_rows (s : Section) : List (List Value) :=
  let has_header :=
    ((((s.rows.drop 1).take 1).takeWhile (fun r =>
        match r[1]? with
        | some (Value.string str) => str.startsWith "-"
        | _ => false)).head?).isSome
  if has_header then s.rows.drop 2 else s.rows

/-! ### Spec-side conditions used to settle claim C8 -/

/-- The condition of claim C8 stated in the spec's words: the section has
more than one row and the first cell of physical row 1 (zero-based) is a
non-empty string composed entirely of `-` characters. -/
def header_separator_cond (s : Section) : Bool :=
  decide (1 < s.rows.length) &&
    (match s.rows[1]? with
     | some r =>
       match r.head? with
       | some (Value.string str) => !str.isEmpty && str.toList.all (fun c => c == '-')
       | _ => false
     | none => false)

/-- The condition actually used by the by-value iterator of
`src/ion/section.rs`: the cell at index 1 of physical row 1 is a string
starting with `-`. -/
def into_iter_cond (s : Section) : Bool :=
  match s.rows[1]? with
  | some r =>
    match r[1]? with
    | some (Value.string str) => str.startsWith "-"
    | _ => false
  | none => false

/-! ## Helper lemmas about the element producer and the builder -/

/-- An `Ok(Some(..))` result of `Parser::entry` is always an `Entry`
element. -/
theorem entry_ok_entry : ∀ (fuel : Nat) (ls : Option String) (rem : List Char) (el : Element)
    (rem2 : List Char), entry fuel ls rem = (.ok (some el), rem2) →
    ∃ k v, el = .entry k v := by
  intro fuel ls rem el rem2 h
  cases fuel with
  | zero => simp [entry] at h
  | succ n =>
    simp only [entry] at h
    split at h
    · simp at h
    · split at h
      · split at h
        · simp only [Prod.mk.injEq, Except.ok.injEq, Option.some.injEq] at h
          exact ⟨_, _, h.1.symm⟩
        · simp at h
        · simp at h
      · simp at h

/-- Without a filter every header is accepted and nothing changes. -/
theorem isa_none (nm : String) : is_section_accepted nm none = (some true, none) := by
  simp [is_section_accepted]

/-- An exhausted working set signals early exit and stays exhausted. -/
theorem isa_empty (nm : String) :
    is_section_accepted nm (some []) = (none, some []) := by
  simp [is_section_accepted]

/-- A configured working set stays configured. -/
theorem isa_isSome (nm : String) (l : List String) :
    ((is_section_accepted nm (some l)).2).isSome = true := by
  simp only [is_section_accepted]
  split
  · rfl
  · split <;> rfl

/-- The producer never creates a filter out of thin air. -/
theorem next_acc_none : ∀ (fuel : Nat) (flag : Bool) (st : PSt), st.accepted = none →
    ((next fuel flag st).2).accepted = none := by
  intro fuel
  induction fuel with
  | zero => intro flag st h; exact h
  | succ n ih =>
    intro flag st h
    simp only [next, h, isa_none]
    repeat' split
    all_goals first
      | rfl
      | exact ih _ _ rfl

/-- An exhausted working set is preserved by the producer. -/
theorem next_empty_acc : ∀ (fuel : Nat) (flag : Bool) (st : PSt), st.accepted = some [] →
    ((next fuel flag st).2).accepted = some [] := by
  intro fuel
  induction fuel with
  | zero => intro flag st h; exact h
  | succ n ih =>
    intro flag st h
    simp only [next, h, isa_empty]
    repeat' split
    all_goals first
      | rfl
      | exact ih _ _ rfl

/-- Under an exhausted working set the producer never emits a section
header element. -/
theorem next_empty_no_sect : ∀ (fuel : Nat) (flag : Bool) (st : PSt), st.accepted = some [] →
    ∀ nm, (next fuel flag st).1 ≠ some (.ok (.sect nm)) := by
  intro fuel
  induction fuel with
  | zero => intro flag st h nm; simp [next]
  | succ n ih =>
    intro flag st h nm
    simp only [next, h, isa_empty]
    repeat' split
    all_goals first
      | exact ih _ _ rfl nm
      | (rename_i heq
         obtain ⟨k, v, rfl⟩ := entry_ok_entry _ _ _ _ _ heq
         simp)
      | (simp [row]; done)
      | (rcases hq : slice_to_inc '\n' ((ws st.rem).tail) with _ | ⟨a, b⟩ <;>
          simp [comment, hq] <;> done)
      | simp

/-- A configured filter stays configured across a producer step. -/
theorem next_acc_isSome : ∀ (fuel : Nat) (flag : Bool) (st : PSt),
    st.accepted.isSome = true → ((next fuel flag st).2).accepted.isSome = true := by
  intro fuel
  induction fuel with
  | zero => intro flag st h; exact h
  | succ n ih =>
    intro flag st h
    obtain ⟨l, hl⟩ : ∃ l, st.accepted = some l := by
      cases hs : st.accepted with
      | none => rw [hs] at h; simp at h
      | some l => exact ⟨l, rfl⟩
    simp only [next, hl]
    repeat' split
    all_goals first
      | rfl
      | (refine ih _ _ ?_; simp; done)
      | (rename_i acc' heq
         have h2 := isa_isSome (section_name (ws st.rem)).1 l
         rw [heq] at h2
         first
           | exact h2
           | exact ih _ _ h2)

/-- With an exhausted working set the builder can only produce the empty
document (no section element is ever emitted, so nothing is committed). -/
theorem read_loop_empty_filter : ∀ (fuel : Nat) (st : PSt) (cur : Section) (m : Doc),
    st.accepted = some [] → read_loop fuel st none [] cur = .ok m → m = [] := by
  intro fuel
  induction fuel with
  | zero => intro st cur m h hr; simp [read_loop] at hr
  | succ n ih =>
    intro st cur m h hr
    simp only [read_loop] at hr
    rcases hn : next (nextFuel st) true st with ⟨r, st'⟩
    rw [hn] at hr
    have ha : st'.accepted = some [] := by
      have h2 := next_empty_acc (nextFuel st) true st h
      rw [hn] at h2; exact h2
    rcases r with _ | er
    · simp only [ha] at hr
      simpa using hr.symm
    · rcases er with e | el
      · simp at hr
      · rcases el with nm | r' | ⟨k, v⟩ | c'
        · exfalso
          have h3 := next_empty_no_sect (nextFuel st) true st h nm
          rw [hn] at h3; exact h3 rfl
        · exact ih st' _ m ha hr
        · exact ih st' _ m ha hr
        · exact ih st' _ m ha hr

/-- When no section element is produced, an unfiltered build that succeeds
commits exactly one section, under the default name "root". -/
theorem read_loop_no_header_unfiltered : ∀ (fuel : Nat) (st : PSt) (cur : Section) (m : Doc),
    st.accepted = none →
    (trace_elems fuel st).all (fun e => !e.isSect) = true →
    read_loop fuel st none [] cur = .ok m → m.map Prod.fst = ["root"] := by
  intro fuel
  induction fuel with
  | zero => intro st cur m h ht hr; simp [read_loop] at hr
  | succ n ih =>
    intro st cur m h ht hr
    simp only [read_loop] at hr
    simp only [trace_elems] at ht
    rcases hn : next (nextFuel st) true st with ⟨r, st'⟩
    rw [hn] at hr ht
    have ha : st'.accepted = none := by
      have h2 := next_acc_none (nextFuel st) true st h
      rw [hn] at h2; exact h2
    rcases r with _ | er
    · simp only [ha, insertSorted] at hr
      have hm : m = [("root", cur)] := by simpa using hr.symm
      simp [hm]
    · rcases er with e | el
      · simp at hr
      · rcases el with nm | r' | ⟨k, v⟩ | c'
        · simp [Element.isSect] at ht
        · simp only [List.all_cons, Element.isSect, Bool.not_false, Bool.true_and] at ht
          exact ih st' _ m ha ht hr
        · simp only [List.all_cons, Element.isSect, Bool.not_false, Bool.true_and] at ht
          exact ih st' _ m ha ht hr
        · simp only [List.all_cons, Element.isSect, Bool.not_false, Bool.true_and] at ht
          exact ih st' _ m ha ht hr

/-- When no section element is produced, a filtered build that succeeds
commits nothing at all. -/
theorem read_loop_no_header_filtered : ∀ (fuel : Nat) (st : PSt) (cur : Section) (m : Doc),
    st.accepted.isSome = true →
    (trace_elems fuel st).all (fun e => !e.isSect) = true →
    read_loop fuel st none [] cur = .ok m → m = [] := by
  intro fuel
  induction fuel with
  | zero => intro st cur m h ht hr; simp [read_loop] at hr
  | succ n ih =>
    intro st cur m h ht hr
    simp only [read_loop] at hr
    simp only [trace_elems] at ht
    rcases hn : next (nextFuel st) true st with ⟨r, st'⟩
    rw [hn] at hr ht
    have ha : st'.accepted.isSome = true := by
      have h2 := next_acc_isSome (nextFuel st) true st h
      rw [hn] at h2; exact h2
    rcases r with _ | er
    · obtain ⟨l, hl⟩ : ∃ l, st'.accepted = some l := by
        cases hs : st'.accepted with
        | none => rw [hs] at ha; simp at ha
        | some l => exact ⟨l, rfl⟩
      simp only [hl] at hr
      simpa using hr.symm
    · rcases er with e | el
      · simp at hr
      · rcases el with nm | r' | ⟨k, v⟩ | c'
        · simp [Element.isSect] at ht
        · simp only [List.all_cons, Element.isSect, Bool.not_false, Bool.true_and] at ht
          exact ih st' _ m ha ht hr
        · simp only [List.all_cons, Element.isSect, Bool.not_false, Bool.true_and] at ht
          exact ih st' _ m ha ht hr
        · simp only [List.all_cons, Element.isSect, Bool.not_false, Bool.true_and] at ht
          exact ih st' _ m ha ht hr

/-- A producer step on input whose first character is `[`, under an
exhausted working set, terminates the sequence immediately. -/
theorem next_lbrack (fuel : Nat) (ls : Option String) (rest : List Char) :
    next (fuel + 1) true ⟨ls, some [], '[' :: rest⟩ =
      (none, ⟨some (section_name ('[' :: rest)).1, some [],
        (section_name ('[' :: rest)).2⟩) := by
  have w : wsChar '[' = false := by decide
  have n1 : ('[' == '\n') = false := by decide
  have n2 : ('[' == '\r') = false := by decide
  have b1 : ('[' == '[') = true := by decide
  simp only [next, ws, List.dropWhile_cons, w, Bool.false_eq_true, if_false, newline,
    n1, n2, b1, if_true, isa_empty]

/-! ## Theorems settling the claims -/

/-- Claim C6 (confirmed): parsing `[A]\nk="1"\n[A]\nk="2"\n` with the
accepted-section list `["A"]` yields a single section `A` with `k = "1"`:
the name is removed from the working set on first match, the second header
finds the working set empty and production stops, so the first occurrence
wins under filtering. -/
theorem c6_filtered_duplicate_first_wins :
    parse_ion_filtered "[A]\nk=\"1\"\n[A]\nk=\"2\"\n" ["A"] =
      .ok [("A", ⟨[("k", Value.string "1")], []⟩)] := by rfl

/-- Claim C7 (confirmed): parsing `[A]\nk="1"\n[A]\nk="2"\n` without a
filter yields exactly one section `A` whose dictionary has `k = "2"`: the
second header commits the first section, and the final commit's map insert
overwrites it, so the last occurrence's accumulated content wins. -/
theorem c7_unfiltered_duplicate_last_wins :
    parse_ion "[A]\nk=\"1\"\n[A]\nk=\"2\"\n" =
      .ok [("A", ⟨[("k", Value.string "2")], []⟩)] := by rfl

/-- Claim C10 (confirmed): on `[A]\na="1"\nk=tru\nm="x"\n` the value of
`k` begins with `t` but is not the token `true`, so `boolean` answers
`Ok(None)`, `entry` propagates it, the iterator's `transpose` turns it into
end-of-sequence, and the build returns `Ok` with only the content seen so
far (`a = "1"`) committed — the entire remainder (`m="x"`) is silently
ignored. -/
theorem c10_boolean_mismatch_silent_stop :
    parse_ion "[A]\na=\"1\"\nk=tru\nm=\"x\"\n" =
      .ok [("A", ⟨[("a", Value.string "1")], []⟩)] := by rfl

/-- Counterexample to claim C1 as stated: for the input `"a` the quoted
string is opened and the input ends with no closing `"`, yet reading the
value succeeds with `Ok` — the remaining text `a` is taken as the string's
contents — instead of failing with a parser error. -/
theorem c1_counterexample :
    value 1 none ['"', 'a'] = (.ok (some (Value.string "a")), []) := by rfl

/-- Counterexample to claim C5 as stated: with an empty accepted-section
list, the malformed input `k=` (an entry whose value is missing, before any
section header) still triggers the value-grammar error "Cannot read a
value" instead of returning an empty document. -/
theorem c5_counterexample :
    parse_ion_filtered "k=" [] = .error ⟨"unknown", "Cannot read a value"⟩ := by rfl

/-- Counterexample to claim C9 as stated: the input `k=` contains no
section header, yet unfiltered parsing returns a grammar error rather than
a document with one section under "root" (the claim holds only for inputs
that parse successfully). -/
theorem c9_counterexample :
    parse_ion "k=" = .error ⟨"unknown", "Cannot read a value"⟩ := by rfl

/-- Claim C2 (code bug): serializing the cell string `a|b` produces
`| a\|b |`, but reparsing splits at the escaped pipe because
`Parser::cell` performs no unescaping, yielding the two cells `a\` and `b`
instead of the original `a|b` (the repo's own test
`cell_content_with_escaped_pipe` in `src/ion/section.rs` expects the
escaping to be reversed). -/
theorem c2_pipe_roundtrip_bug :
    display_ion [("root", ⟨[], [[Value.string "a|b"]]⟩)] = "[root]\n| a\\|b |\n\n" ∧
    parse_ion "[root]\n| a\\|b |\n\n" =
      .ok [("root", ⟨[], [[Value.string "a\\", Value.string "b"]]⟩)] ∧
    ("a\\" : String) ≠ "a|b" := ⟨by rfl, by rfl, by decide⟩

/-- Claim C3 (code bug): `parse (serialize (parse t))` differs from
`parse t` for `t = k="a\b"`.  The first parse stores the raw backslash
(`a\b`); the serializer escapes it to `"a\\b"`; the reparse stores `a\\b`
because `finish_string` never decodes escape sequences.  Idempotence fails
on any parsed string containing a backslash. -/
theorem c3_idempotence_bug :
    parse_ion "k=\"a\\b\"" = .ok [("root", ⟨[("k", Value.string "a\\b")], []⟩)] ∧
    display_ion [("root", ⟨[("k", Value.string "a\\b")], []⟩)] =
      "[root]\nk = \"a\\\\b\"\n\n" ∧
    parse_ion "[root]\nk = \"a\\\\b\"\n\n" =
      .ok [("root", ⟨[("k", Value.string "a\\\\b")], []⟩)] ∧
    ("a\\\\b" : String) ≠ "a\\b" := ⟨by rfl, by rfl, by rfl, by decide⟩

/-- Claim C4 (code bug): the stored string is not the unescaped text.  For
the input `k="a\nb"` (backslash-n inside the quotes) the parser stores the
four characters `a`, `\`, `n`, `b` verbatim — `finish_string` slices raw
text to the next `"` and decodes none of `\\`, `\n`, `\"` — whereas the
claim requires the decoded three-character string with a real newline. -/
theorem c4_escape_not_decoded :
    parse_ion "k=\"a\\nb\"" = .ok [("root", ⟨[("k", Value.string "a\\nb")], []⟩)] ∧
    ("a\\nb" : String) ≠ "a\nb" := ⟨by rfl, by decide⟩

/-- Counterexample to claim C8 as stated: for a section with rows
`["a"]`, `["---"]` the header condition of the claim holds (more than one
row, first cell of row 1 is `---`), and `rows_without_header` indeed drops
both rows, but by-value iteration returns all rows unmodified — it inspects
the cell at index 1 (absent here) instead of the first cell. -/
theorem c8_counterexample :
    Section.rows_without_header ⟨[], [[Value.string "a"], [Value.string "---"]]⟩ = [] ∧
    Section.into_iter_rows ⟨[], [[Value.string "a"], [Value.string "---"]]⟩ =
      [[Value.string "a"], [Value.string "---"]] ∧
    ([[Value.string "a"], [Value.string "---"]] : List (List Value)) ≠ [] := by
  refine ⟨by rfl, by rfl, by simp⟩

/-- Claim C1 (corrected): when a quoted string is opened with `"` and no
closing `"` appears in the rest of the input, reading the value fails only
when the input ends immediately after the opening quote; otherwise it
succeeds, taking the entire remaining text as the string's contents. -/
theorem c1_unterminated_string_amended (fuel : Nat) (lastSec : Option String)
    (rest : List Char) (h : rest.contains '"' = false) :
    value (fuel + 1) lastSec ('"' :: rest) =
      ((if rest = [] then Except.error (mkError lastSec "Cannot finish string")
        else Except.ok (some (Value.string (String.mk rest)))), []) := by
  cases rest with
  | nil => rfl
  | cons c rest' =>
    simp only [List.contains_cons, Bool.or_eq_false_iff] at h
    obtain ⟨h1, h2⟩ := h
    have hc : (c == '"') = false := by
      cases hbe : c == '"'
      · rfl
      · exfalso
        have : c = '"' := by simpa [beq_iff_eq] using hbe
        subst this
        simp at h1
    have w1 : wsChar '"' = false := by decide
    have n1 : ('"' == '\n') = false := by decide
    have n2 : ('"' == '\r') = false := by decide
    have q1 : ('"' == '"') = true := by decide
    simp only [value, ws, List.dropWhile_cons, w1, Bool.false_eq_true, if_false,
      List.dropWhile_nil, newline, n1, n2, Option.getD, finish_string,
      List.drop_succ_cons, List.drop_zero, slice_to_exc, hc, h2, q1, if_true,
      List.cons_ne_nil, if_neg, ite_false]

/-- Witness for C1: at the concrete input `"a` (no closing quote, one
character after the opening quote) the hypothesis holds and the value
reader succeeds with the remaining text `a`. -/
theorem c1_unterminated_string_amended_witness :
    (['a'].contains '"' = false) ∧
    value 1 none ['"', 'a'] = (.ok (some (Value.string (String.mk ['a']))), []) := by
  refine ⟨by decide, ?_⟩
  have h := c1_unterminated_string_amended 0 none ['a'] (by decide)
  simpa using h

/-- Claim C5 (corrected): with an empty accepted-section list a successful
parse always returns the empty document (no section element is ever
produced), and any input that begins with a section header parses to the
empty document without its remainder ever being scanned; however — contrary
to the claim — malformed content before the first header still triggers
value-grammar errors (see the counterexample). -/
theorem c5_empty_filter_amended :
    (∀ (input : String) (m : Doc), parse_ion_filtered input [] = .ok m → m = []) ∧
    (∀ rest : List Char, parse_core (some []) ('[' :: rest) = .ok []) := by
  constructor
  · intro input m h
    exact read_loop_empty_filter _ _ _ _ rfl h
  · intro rest
    show read_loop (rest.length + 1 + 1) ⟨none, some [], '[' :: rest⟩ none [] ⟨[], []⟩ = .ok []
    have hf : nextFuel ⟨none, some [], '[' :: rest⟩ = (4 * ('[' :: rest).length + 15) + 1 := by
      simp [nextFuel]
    simp only [read_loop, hf, next_lbrack]

/-- Witness for C5: the empty-filter parse of `[A]` yields the empty
document, and the first part applied to the empty input also yields the
empty document. -/
theorem c5_empty_filter_amended_witness :
    parse_core (some []) ('[' :: 'A' :: ']' :: []) = .ok [] ∧
    parse_ion_filtered "" [] = .ok [] ∧ ([] : Doc) = [] := by
  refine ⟨c5_empty_filter_amended.2 ['A', ']'], rfl, c5_empty_filter_amended.1 "" [] rfl⟩

/-- Claim C8 (corrected): `rows_without_header` and by-reference iteration
drop physical rows 0 and 1 exactly when the section has more than one row
and the first cell of physical row 1 is a non-empty all-dash string, and
return all rows unmodified otherwise; by-value iteration instead drops them
exactly when the cell at index 1 of physical row 1 is a string that starts
with `-`. -/
theorem c8_header_rows_amended (s : Section) :
    s.rows_without_header =
      (if header_separator_cond s then s.rows.drop 2 else s.rows) ∧
    s.iter_ref_rows =
      (if header_separator_cond s then s.rows.drop 2 else s.rows) ∧
    s.into_iter_rows =
      (if into_iter_cond s then s.rows.drop 2 else s.rows) := by
  obtain ⟨d, rows⟩ := s
  match rows with
  | [] =>
    refine ⟨?_, ?_, ?_⟩ <;>
      simp [Section.rows_without_header, Section.iter_ref_rows, Section.into_iter_rows,
        header_separator_cond, into_iter_cond]
  | [r] =>
    refine ⟨?_, ?_, ?_⟩ <;>
      simp [Section.rows_without_header, Section.iter_ref_rows, Section.into_iter_rows,
        header_separator_cond, into_iter_cond]
  | r0 :: r1 :: rest =>
    have hl : 1 < rest.length + 1 + 1 := by omega
    have main : Section.rows_without_header ⟨d, r0 :: r1 :: rest⟩ =
        (if header_separator_cond ⟨d, r0 :: r1 :: rest⟩ then (r0 :: r1 :: rest).drop 2
         else r0 :: r1 :: rest) := by
      simp only [Section.rows_without_header, header_separator_cond, List.length_cons,
        if_pos hl, hl, decide_eq_true_eq, Bool.true_and, List.getD, List.get?_cons_succ,
        List.get?_cons_zero, Option.getD_some, List.getElem?_cons_succ,
        List.getElem?_cons_zero, List.drop_succ_cons, List.drop_zero]
      cases hh : r1.head? with
      | none => simp [hh]
      | some v => cases v <;> simp [hh, is_dash_cell]
    refine ⟨main, main, ?_⟩
    simp only [Section.into_iter_rows, into_iter_cond, List.drop_succ_cons,
      List.drop_zero, List.take_succ_cons, List.take_zero, List.takeWhile,
      List.takeWhile_nil, List.getElem?_cons_succ, List.getElem?_cons_zero]
    set C := (match r1[1]? with
      | some (Value.string str) => str.startsWith "-"
      | _ => false) with hC
    cases hc : C <;> simp [hc]

/-- Claim C9 (corrected): for an input that produces no section-header
element, a successful unfiltered parse stores exactly one section under the
default name "root", and a successful parse under any configured filter
(whose run likewise sees no header) yields the empty document.  (As parsed:
a malformed headerless input errors instead — see the counterexample.) -/
theorem c9_no_header_amended (input : String)
    (h : (trace_elems (input.toList.length + 1) ⟨none, none, input.toList⟩).all
        (fun e => !e.isSect) = true) :
    (∀ m : Doc, parse_ion input = .ok m → m.map Prod.fst = ["root"]) ∧
    (∀ accepted : List String,
      (trace_elems (input.toList.length + 1) ⟨none, some accepted, input.toList⟩).all
          (fun e => !e.isSect) = true →
      ∀ m' : Doc, parse_ion_filtered input accepted = .ok m' → m' = []) :=
  ⟨fun m hm => read_loop_no_header_unfiltered _ _ _ _ rfl h hm,
   fun accepted ha m' hm' =>
     read_loop_no_header_filtered (input.toList.length + 1)
       ⟨none, some accepted, input.toList⟩ ⟨[], []⟩ m' rfl ha hm'⟩

/-- Witness for C9: the headerless input `k="1"` parses unfiltered to a
document whose only section name is "root". -/
theorem c9_no_header_amended_witness :
    ∃ m : Doc, parse_ion "k=\"1\"" = .ok m ∧ m.map Prod.fst = ["root"] := by
  refine ⟨_, rfl, ?_⟩
  exact (c9_no_header_amended "k=\"1\"" (by decide)).1 _ rfl

end Ion
